import Mathlib

/-
Verification development for the RelayX repository (src/relayx/server.py).

The core of the repository is `AioHttpAddon`: a mitmproxy addon whose
`request` coroutine relays an inbound HTTP flow through an upstream proxy
obtained from a swiftshadow `ProxyInterface`, retrying failed outbound
attempts with exponential backoff, under a wall-clock deadline, and
synthesizing plain-text error responses (499 / 502 / 504) on terminal
failure.

The shallow embedding below models:
  - the addon's mutable state (`self.proxy`, `self.proxy_updated`,
    `self.connector`) as the structure `AddonState`;
  - the `active_connections` dict and the `client_connected` /
    `client_disconnected` hooks as operations on an association list;
  - one iteration of the `while retry_count <= max_retries` loop as
    `relayStep`, and the whole loop as the fuel-indexed `relayLoop`;
  - the environment (wall clock readings, transport outcomes, proxies
    handed out by `ProxyInterface.get`, and snapshots of the shared
    `active_connections` dict at each check point) as an oracle
    `inputs : Nat -> IterInput`, one entry per loop iteration.

Every branch of `relayStep` corresponds to a return site or control
transfer in `AioHttpAddon.request` (line numbers cited at each
definition).  `RelayResult` additionally records, as ghost trace data,
which exit branch produced the response, the outbound transport calls
that were issued (with the request forwarded and the connector used),
the number of `proxy_interface.update()` and `proxy_interface.get()`
calls, and the backoff delays slept.
-/

namespace RelayX

/-- Upstream proxy value, as used by swiftshadow's `Proxy` (fields
`protocol`, `ip`, `port` read at server.py lines 38, 46, 112). -/
structure Proxy where
  protocol : String
  ip : String
  port : Nat
deriving DecidableEq

/-- An HTTP response: status, headers and body.  Models both the
transport's `resp` (status / headers / read body, lines 125-130) and the
mitmproxy response built by `http.Response.make` (status, content,
headers). -/
structure HttpResponse where
  status : Nat
  headers : List (String × String)
  body : String
deriving DecidableEq

/-- Outcome of one outbound transport call (`aiohttp.request`, lines
117-127): either a response (any status code) or a raised exception,
identified by its description string. -/
inductive AttemptResult where
  | resp (r : HttpResponse)
  | err (e : String)
deriving DecidableEq

/-- The request data extracted from the flow at lines 70-73: method,
url, headers dict, optional body. -/
structure RelayRequest where
  method : String
  url : String
  headers : List (String × String)
  body : Option String
deriving DecidableEq

/-- The addon's proxy-selection state: `self.proxy`,
`self.proxy_updated` and `self.connector` (a connector is modelled by
the proxy it was built from at lines 111-113). -/
structure AddonState where
  proxy : Option Proxy
  proxy_updated : Bool
  connector : Option Proxy
deriving DecidableEq

/-- `AioHttpAddon.__init__` (lines 26-32): proxy None, proxy_updated
False, connector None.  (`self.timeout` and the empty
`active_connections` dict are modelled separately.) -/
def initState : AddonState :=
  { proxy := none, proxy_updated := false, connector := none }

/-- The environment of one iteration of the retry loop: the
`active_connections` snapshot read by the check at lines 81-84, the
value of `time.time() - start_time` at line 95, the outcome of the
outbound call, the snapshot read by the re-check at lines 140-143, and
the proxy `self.proxy_interface.get()` would return at line 44. -/
structure IterInput where
  connsAtTop : List (Nat × Bool)
  elapsed : ℚ
  attempt : AttemptResult
  connsAtErr : List (Nat × Bool)
  nextProxy : Proxy

/-- Which return site of `AioHttpAddon.request` produced the response:
the 499 branch at lines 88-91, the 504 branch at lines 99-102, the
pass-through at lines 133-136, the 499 branch at lines 147-150, or the
502 exit at lines 176-180. -/
inductive ExitBranch where
  | clientClosedTop
  | deadline
  | success
  | clientClosedExc
  | exhausted
deriving DecidableEq

/-- Result of a run of `AioHttpAddon.request`: the synthesized
`flow.response`, the final addon state, and ghost trace data (exit
branch, transport calls issued with the connector used, counts of
`proxy_interface.update()` and `proxy_interface.get()` calls, backoff
delays slept). -/
structure RelayResult where
  branch : ExitBranch
  response : HttpResponse
  finalState : AddonState
  calls : List (RelayRequest × Option Proxy)
  updateCalls : Nat
  getCalls : Nat
  delays : List ℚ
deriving DecidableEq

/-- `self.timeout` (line 30), the per-attempt timeout in seconds. -/
def perAttemptTimeout : Nat := 120

/-- `max_retries` (line 65). -/
def max_retries : Nat := 50

/-- `max_total_time` (line 77), the overall deadline in seconds. -/
def max_total_time : ℚ := 240

/-- Content-Type header used by every synthesized error response. -/
def plainText : List (String × String) := [("Content-Type", "text/plain")]

/-- The response made at lines 88-91 and 147-150. -/
def clientClosedResponse : HttpResponse :=
  { status := 499, headers := plainText, body := "Client closed request" }

/-- The response made at lines 99-102. -/
def timeoutResponse : HttpResponse :=
  { status := 504, headers := plainText, body := "Request timeout" }

/-- `str(last_error)` where `last_error` is `None` or an exception. -/
def strOfLastError : Option String → String
  | some e => e
  | none => "None"

/-- The response made at lines 176-180 after all retries failed. -/
def exhaustedResponse (maxRetries : Nat) (lastError : Option String) : HttpResponse :=
  { status := 502
    headers := plainText
    body := "Error after " ++ toString (maxRetries + 1) ++ " attempts: "
              ++ strOfLastError lastError }

/-- Python's two-argument builtin `min(a, b)`: `a` when `a <= b`, else
`b`.  Agrees with Mathlib's `min` (see `pyMin_eq_min`). -/
def pyMin (a b : ℚ) : ℚ := if a ≤ b then a else b

/-- Backoff delay computed at line 169:
`delay = min(10, 0.5 * (2**retry_count))` (0.5 written as 1/2). -/
def backoffDelay (retry_count : Nat) : ℚ := pyMin 10 (1 / 2 * 2 ^ retry_count)

/-- Python dict assignment `m[k] = v`: replace the binding if the key is
present, else append it. -/
def dictSet (m : List (Nat × Bool)) (k : Nat) (v : Bool) : List (Nat × Bool) :=
  match m with
  | [] => [(k, v)]
  | (k1, v1) :: rest => if k1 = k then (k, v) :: rest else (k1, v1) :: dictSet rest k v

/-- Python dict deletion `del m[k]`: drop the first binding of the key. -/
def dictDel (m : List (Nat × Bool)) (k : Nat) : List (Nat × Bool) :=
  match m with
  | [] => []
  | (k1, v1) :: rest => if k1 = k then rest else (k1, v1) :: dictDel rest k

/-- Python dict lookup `m[k]` / `k in m`. -/
def dictGet (m : List (Nat × Bool)) (k : Nat) : Option Bool :=
  match m with
  | [] => none
  | (k1, v1) :: rest => if k1 = k then some v1 else dictGet rest k

/-- `AioHttpAddon.client_connected` (lines 50-53):
`self.active_connections[conn_id] = True`. -/
def client_connected (m : List (Nat × Bool)) (client : Nat) : List (Nat × Bool) :=
  dictSet m client true

/-- `AioHttpAddon.client_disconnected` (lines 55-59):
`if conn_id in self.active_connections: del self.active_connections[conn_id]`. -/
def client_disconnected (m : List (Nat × Bool)) (client : Nat) : List (Nat × Bool) :=
  if (dictGet m client).isSome then dictDel m client else m

/-- The guard used at lines 81-84 and 140-143:
`conn_id in self.active_connections and not self.active_connections[conn_id]`. -/
def connClosed (m : List (Nat × Bool)) (connId : Nat) : Bool :=
  match dictGet m connId with
  | some b => !b
  | none => false

/-- The connector (re)build step at lines 104-114: if `self.connector`
is None or `self.proxy_updated` is set, build a new connector from
`self.proxy` and clear `proxy_updated`.  Returns `none` when the build
itself raises, i.e. when `self.proxy` is `None` (the attribute access
at line 112 fails); the exception is then caught by the `except` at line
138 like any transport error. -/
def rebuildConnector (st : AddonState) : Option AddonState :=
  if st.connector.isNone || st.proxy_updated then
    match st.proxy with
    | none => none
    | some p => some { st with connector := some p, proxy_updated := false }
  else
    some st

/-- Error description for the exception raised at line 112 when
`self.proxy` is `None`. -/
def proxyNoneError : String := "NoneType object has no attribute protocol"

/-- Effect of lines 158-159 in the `except` branch:
`self.proxy_interface.update()` followed by
`await self._update_proxy(force=True)`, which (proxy interface present,
force set) assigns `self.proxy = self.proxy_interface.get()` and sets
`self.proxy_updated = True`.  The argument is the proxy returned by
`get()`; the `update()`/`get()` call counts are recorded by the caller. -/
def updateProxy (st : AddonState) (newProxy : Proxy) : AddonState :=
  { st with proxy := some newProxy, proxy_updated := true }

/-- Outcome of one loop iteration: either the loop returns / breaks
(`exit`, carrying branch, response, state and the iteration's trace
data), or it continues after the backoff sleep (`retry`, carrying the
error stored in `last_error`, the updated state, and the calls made). -/
inductive StepOut where
  | exit (branch : ExitBranch) (response : HttpResponse) (st : AddonState)
      (calls : List (RelayRequest × Option Proxy)) (updateCalls getCalls : Nat)
  | retry (e : String) (st : AddonState)
      (calls : List (RelayRequest × Option Proxy))
deriving DecidableEq

/-- The `except Exception as e` branch at lines 138-170, entered with
the current state, the error `e`, and the transport calls made this
iteration.  `i` is the value of `retry_count` at the top of the
iteration, so line 162's increment makes it `i + 1`. -/
def exceptPart (inp : IterInput) (connId maxRetries i : Nat) (st : AddonState)
    (e : String) (calls : List (RelayRequest × Option Proxy)) : StepOut :=
  if connClosed inp.connsAtErr connId then
    .exit .clientClosedExc clientClosedResponse st calls 0 0
  else
    let st2 := updateProxy st inp.nextProxy
    if i + 1 > maxRetries then
      .exit .exhausted (exhaustedResponse maxRetries (some e)) st2 calls 1 1
    else
      .retry e st2 calls

/-- One iteration of the `while retry_count <= max_retries` loop (lines
79-170), with `retry_count = i` at entry: the disconnect check (81-84),
the deadline check (95-102), the connector rebuild (104-114), the
outbound call (117-136) whose outcome the oracle supplies, and on
exception the `except` branch. -/
def relayStep (req : RelayRequest) (inp : IterInput) (connId maxRetries i : Nat)
    (st : AddonState) : StepOut :=
  if connClosed inp.connsAtTop connId then
    .exit .clientClosedTop clientClosedResponse st [] 0 0
  else if inp.elapsed > max_total_time then
    .exit .deadline timeoutResponse st [] 0 0
  else
    match rebuildConnector st with
    | none => exceptPart inp connId maxRetries i st proxyNoneError []
    | some st1 =>
        match inp.attempt with
        | .resp r =>
            .exit .success { status := r.status, headers := r.headers, body := r.body }
              st1 [(req, st1.connector)] 0 0
        | .err e => exceptPart inp connId maxRetries i st1 e [(req, st1.connector)]

/-- The retry loop of `AioHttpAddon.request` (lines 79-180).  `fuel`
bounds the remaining iterations (the caller passes `maxRetries + 1`,
the exact maximum); `i` is the current `retry_count`; `lastError` is
the current `last_error`.  Fuel exhaustion corresponds to the `while`
condition turning false, which like `break` falls through to the 502
response at lines 176-180.  On `retry` the iteration's trace data and
the backoff delay `backoffDelay (i+1)` slept at lines 169-170 are
prepended to the rest of the run. -/
def relayLoop (req : RelayRequest) (inputs : Nat → IterInput) (connId maxRetries : Nat) :
    Nat → Nat → AddonState → Option String → RelayResult
  | 0, _, st, lastError =>
      { branch := .exhausted, response := exhaustedResponse maxRetries lastError
        finalState := st, calls := [], updateCalls := 0, getCalls := 0, delays := [] }
  | fuel + 1, i, st, _ =>
      match relayStep req (inputs i) connId maxRetries i st with
      | .exit b r st2 calls upd gets =>
          { branch := b, response := r, finalState := st2, calls := calls
            updateCalls := upd, getCalls := gets, delays := [] }
      | .retry e st2 calls =>
          let rest := relayLoop req inputs connId maxRetries fuel (i + 1) st2 (some e)
          { branch := rest.branch, response := rest.response
            finalState := rest.finalState, calls := calls ++ rest.calls
            updateCalls := 1 + rest.updateCalls, getCalls := 1 + rest.getCalls
            delays := backoffDelay (i + 1) :: rest.delays }

/-- `AioHttpAddon.request` (lines 61-180): `retry_count = 0`,
`max_retries = 50`, `last_error = None`, then the retry loop. -/
def request (req : RelayRequest) (inputs : Nat → IterInput) (connId : Nat)
    (st : AddonState) : RelayResult :=
  relayLoop req inputs connId max_retries (max_retries + 1) 0 st none

/-- `AioHttpAddon.initialize` (lines 34-40): if a proxy interface is
present and no proxy is set, fetch one and set `proxy_updated`; returns
the new state and the number of `get()` calls made. -/
def initAddon (st : AddonState) (sourceProxy : Proxy) : AddonState × Nat :=
  if st.proxy.isNone then
    ({ st with proxy := some sourceProxy, proxy_updated := true }, 1)
  else
    (st, 0)

/-- Events on the shared `active_connections` dict. -/
inductive ConnEvent where
  | connected (client : Nat)
  | disconnected (client : Nat)
deriving DecidableEq

/-- Apply one connection event via the addon's hooks. -/
def applyEvent (m : List (Nat × Bool)) : ConnEvent → List (Nat × Bool)
  | .connected c => client_connected m c
  | .disconnected c => client_disconnected m c

/-- Apply a sequence of connection events starting from a given dict. -/
def applyEvents (m : List (Nat × Bool)) (evs : List ConnEvent) : List (Nat × Bool) :=
  evs.foldl applyEvent m

/-- A dict is reachable when some event sequence produces it from the
empty dict the addon starts with (line 31). -/
def Reachable (m : List (Nat × Bool)) : Prop :=
  ∃ evs : List ConnEvent, applyEvents [] evs = m

/-- Every stored value is `true`. -/
def allTrue (m : List (Nat × Bool)) : Prop :=
  ∀ kv ∈ m, kv.2 = true

/-- Per-iteration side conditions of a run that neither observes a
disconnect nor exceeds the deadline at iteration `j`. -/
def stepOk (inputs : Nat → IterInput) (connId : Nat) (j : Nat) : Prop :=
  connClosed (inputs j).connsAtTop connId = false ∧
  connClosed (inputs j).connsAtErr connId = false ∧
  (inputs j).elapsed ≤ max_total_time

lemma pyMin_eq_min (a b : ℚ) : pyMin a b = min a b :=
  (min_def a b).symm

lemma backoffDelay_le_succ (k : Nat) : backoffDelay k ≤ backoffDelay (k + 1) := by
  unfold backoffDelay
  rw [pyMin_eq_min, pyMin_eq_min]
  refine min_le_min le_rfl ?_
  have h : (2 : ℚ) ^ k ≤ 2 ^ (k + 1) := by
    have h2 : (2 : ℚ) ^ (k + 1) = 2 ^ k * 2 := pow_succ 2 k
    nlinarith [pow_pos (show (0:ℚ) < 2 by norm_num) k]
  linarith

lemma backoffDelay_mono {j k : Nat} (h : j ≤ k) : backoffDelay j ≤ backoffDelay k := by
  induction h with
  | refl => exact le_rfl
  | step _ ih => exact ih.trans (backoffDelay_le_succ _)

lemma backoffDelay_le_ten (k : Nat) : backoffDelay k ≤ 10 := by
  rw [backoffDelay, pyMin_eq_min]
  exact min_le_left _ _

lemma backoffDelay_eq_ten {k : Nat} (h : 5 ≤ k) : backoffDelay k = 10 := by
  rw [backoffDelay, pyMin_eq_min]
  refine min_eq_left ?_
  have h32 : (32 : ℚ) ≤ 2 ^ k := by
    calc (32 : ℚ) = 2 ^ 5 := by norm_num
    _ ≤ 2 ^ k := by
        have h1 : (1 : ℚ) ≤ 2 := by norm_num
        exact pow_le_pow_right₀ h1 h
  linarith

lemma rebuildConnector_proxy_some {st : AddonState} {p : Proxy} (h : st.proxy = some p) :
    ∃ st1 : AddonState, rebuildConnector st = some st1 ∧ st1.proxy = some p ∧
      st1.proxy_updated = false := by
  by_cases hb : (st.connector.isNone || st.proxy_updated) = true
  · refine ⟨{ st with connector := some p, proxy_updated := false }, ?_, h, rfl⟩
    unfold rebuildConnector
    rw [if_pos hb, h]
  · have hb2 : st.proxy_updated = false := by
      rcases hpu : st.proxy_updated with _ | _
      · rfl
      · exact absurd (by simp [hpu]) hb
    refine ⟨st, ?_, h, hb2⟩
    unfold rebuildConnector
    rw [if_neg hb]

lemma relayStep_resp (req : RelayRequest) (inp : IterInput) (connId maxRetries i : Nat)
    (st : AddonState) {p : Proxy} {r : HttpResponse}
    (h1 : connClosed inp.connsAtTop connId = false)
    (h2 : inp.elapsed ≤ max_total_time)
    (hp : st.proxy = some p)
    (ha : inp.attempt = .resp r) :
    ∃ st1 : AddonState, rebuildConnector st = some st1 ∧ st1.proxy = some p ∧
      st1.proxy_updated = false ∧
      relayStep req inp connId maxRetries i st =
        .exit .success r st1 [(req, st1.connector)] 0 0 := by
  obtain ⟨st1, hre, hp1, hpu⟩ := rebuildConnector_proxy_some hp
  have hnl : ¬ (inp.elapsed > max_total_time) := not_lt.mpr h2
  refine ⟨st1, hre, hp1, hpu, ?_⟩
  simp only [relayStep, h1, Bool.false_eq_true, if_false, if_neg hnl, hre, ha]

lemma relayStep_err (req : RelayRequest) (inp : IterInput) (connId maxRetries i : Nat)
    (st : AddonState) {p : Proxy} {e : String}
    (h1 : connClosed inp.connsAtTop connId = false)
    (h2 : inp.elapsed ≤ max_total_time)
    (h3 : connClosed inp.connsAtErr connId = false)
    (hp : st.proxy = some p)
    (ha : inp.attempt = .err e) :
    ∃ st1 : AddonState, rebuildConnector st = some st1 ∧ st1.proxy = some p ∧
      relayStep req inp connId maxRetries i st =
        (if i + 1 > maxRetries then
          .exit .exhausted (exhaustedResponse maxRetries (some e))
            (updateProxy st1 inp.nextProxy) [(req, st1.connector)] 1 1
        else
          .retry e (updateProxy st1 inp.nextProxy) [(req, st1.connector)]) := by
  obtain ⟨st1, hre, hp1, _⟩ := rebuildConnector_proxy_some hp
  have hnl : ¬ (inp.elapsed > max_total_time) := not_lt.mpr h2
  refine ⟨st1, hre, hp1, ?_⟩
  simp only [relayStep, exceptPart, h1, h3, Bool.false_eq_true, if_false, if_neg hnl,
    hre, ha]

lemma relayStep_deadline (req : RelayRequest) (inp : IterInput) (connId maxRetries i : Nat)
    (st : AddonState)
    (h1 : connClosed inp.connsAtTop connId = false)
    (h2 : inp.elapsed > max_total_time) :
    relayStep req inp connId maxRetries i st = .exit .deadline timeoutResponse st [] 0 0 := by
  simp only [relayStep, h1, Bool.false_eq_true, if_false, if_pos h2]

lemma relayLoop_exit {req : RelayRequest} {inputs : Nat → IterInput}
    {connId maxRetries fuel i : Nat} {st st2 : AddonState} {lerr : Option String}
    {b : ExitBranch} {r : HttpResponse} {calls : List (RelayRequest × Option Proxy)}
    {upd gets : Nat}
    (h : relayStep req (inputs i) connId maxRetries i st = .exit b r st2 calls upd gets) :
    relayLoop req inputs connId maxRetries (fuel + 1) i st lerr =
      { branch := b, response := r, finalState := st2, calls := calls
        updateCalls := upd, getCalls := gets, delays := [] } := by
  simp only [relayLoop, h]

lemma relayLoop_retry {req : RelayRequest} {inputs : Nat → IterInput}
    {connId maxRetries fuel i : Nat} {st st2 : AddonState} {lerr : Option String}
    {e : String} {calls : List (RelayRequest × Option Proxy)}
    (h : relayStep req (inputs i) connId maxRetries i st = .retry e st2 calls) :
    relayLoop req inputs connId maxRetries (fuel + 1) i st lerr =
      { branch := (relayLoop req inputs connId maxRetries fuel (i + 1) st2 (some e)).branch
        response := (relayLoop req inputs connId maxRetries fuel (i + 1) st2 (some e)).response
        finalState :=
          (relayLoop req inputs connId maxRetries fuel (i + 1) st2 (some e)).finalState
        calls := calls ++ (relayLoop req inputs connId maxRetries fuel (i + 1) st2 (some e)).calls
        updateCalls :=
          1 + (relayLoop req inputs connId maxRetries fuel (i + 1) st2 (some e)).updateCalls
        getCalls :=
          1 + (relayLoop req inputs connId maxRetries fuel (i + 1) st2 (some e)).getCalls
        delays := backoffDelay (i + 1) ::
          (relayLoop req inputs connId maxRetries fuel (i + 1) st2 (some e)).delays } := by
  simp only [relayLoop, h]

lemma relayLoop_all_err (req : RelayRequest) (inputs : Nat → IterInput)
    (connId maxRetries : Nat) (e : Nat → String) :
    ∀ fuel i st lerr, fuel + i = maxRetries + 1 → i ≤ maxRetries →
    (∀ j, i ≤ j → j ≤ maxRetries → stepOk inputs connId j) →
    (∀ j, i ≤ j → j ≤ maxRetries → (inputs j).attempt = .err (e j)) →
    st.proxy.isSome = true →
    (relayLoop req inputs connId maxRetries fuel i st lerr).branch = .exhausted ∧
    (relayLoop req inputs connId maxRetries fuel i st lerr).response =
      exhaustedResponse maxRetries (some (e maxRetries)) ∧
    (relayLoop req inputs connId maxRetries fuel i st lerr).calls.length = fuel ∧
    (relayLoop req inputs connId maxRetries fuel i st lerr).updateCalls = fuel ∧
    (relayLoop req inputs connId maxRetries fuel i st lerr).getCalls = fuel ∧
    (relayLoop req inputs connId maxRetries fuel i st lerr).delays =
      (List.range' (i + 1) (maxRetries - i)).map backoffDelay := by
  intro fuel
  induction fuel with
  | zero => intro i st lerr hfi hi _ _ _; omega
  | succ f ih =>
    intro i st lerr hfi hi hok hatt hps
    have hok_i := hok i le_rfl hi
    have hatt_i := hatt i le_rfl hi
    obtain ⟨p, hp⟩ := Option.isSome_iff_exists.mp hps
    obtain ⟨st1, _, _, hstep⟩ :=
      relayStep_err req (inputs i) connId maxRetries i st
        hok_i.1 hok_i.2.2 hok_i.2.1 hp hatt_i
    by_cases hbreak : i + 1 > maxRetries
    · have hieq : i = maxRetries := by omega
      have hf0 : f = 0 := by omega
      rw [if_pos hbreak] at hstep
      rw [relayLoop_exit hstep]
      refine ⟨rfl, by rw [hieq], ?_, by simp [hf0], by simp [hf0], ?_⟩
      · simp [hf0]
      · have h0 : maxRetries - i = 0 := by omega
        simp [h0]
    · have hi1 : i + 1 ≤ maxRetries := by omega
      rw [if_neg hbreak] at hstep
      rw [relayLoop_retry hstep]
      obtain ⟨ihb, ihr, ihc, ihu, ihg, ihd⟩ :=
        ih (i + 1) (updateProxy st1 (inputs i).nextProxy) (some (e i)) (by omega) hi1
          (fun j hj1 hj2 => hok j (by omega) hj2)
          (fun j hj1 hj2 => hatt j (by omega) hj2) rfl
      refine ⟨ihb, ihr, ?_, ?_, ?_, ?_⟩
      · simp only [List.length_append, ihc, List.length_cons, List.length_nil]
        omega
      · simp only [ihu]; omega
      · simp only [ihg]; omega
      · have hsub : maxRetries - i = (maxRetries - (i + 1)) + 1 := by omega
        rw [hsub, List.range'_succ, List.map_cons, ihd]

lemma relayLoop_err_resp (req : RelayRequest) (inputs : Nat → IterInput)
    (connId maxRetries : Nat) (e : Nat → String) (r : HttpResponse) (s : Nat) :
    ∀ fuel i st lerr, s < fuel + i → i ≤ s → s ≤ maxRetries →
    (∀ j, i ≤ j → j ≤ s → stepOk inputs connId j) →
    (∀ j, i ≤ j → j < s → (inputs j).attempt = .err (e j)) →
    (inputs s).attempt = .resp r →
    st.proxy.isSome = true →
    (relayLoop req inputs connId maxRetries fuel i st lerr).branch = .success ∧
    (relayLoop req inputs connId maxRetries fuel i st lerr).response = r ∧
    (relayLoop req inputs connId maxRetries fuel i st lerr).calls.length = s - i + 1 ∧
    (relayLoop req inputs connId maxRetries fuel i st lerr).updateCalls = s - i ∧
    (relayLoop req inputs connId maxRetries fuel i st lerr).getCalls = s - i ∧
    (relayLoop req inputs connId maxRetries fuel i st lerr).delays =
      (List.range' (i + 1) (s - i)).map backoffDelay ∧
    (relayLoop req inputs connId maxRetries fuel i st lerr).finalState.proxy_updated
      = false := by
  intro fuel
  induction fuel with
  | zero => intro i st lerr hfi hi _ _ _ _ _; omega
  | succ f ih =>
    intro i st lerr hfi hi hs hok hatt hresp hps
    obtain ⟨p, hp⟩ := Option.isSome_iff_exists.mp hps
    have hok_i := hok i le_rfl hi
    by_cases his : i = s
    · obtain ⟨st1, _, _, hpu, hstep⟩ :=
        relayStep_resp req (inputs i) connId maxRetries i st
          hok_i.1 hok_i.2.2 hp (by rw [his]; exact hresp)
      rw [relayLoop_exit hstep]
      have h0 : s - i = 0 := by omega
      exact ⟨rfl, rfl, by simp [h0], by simp [h0], by simp [h0],
        by simp [h0], hpu⟩
    · have hilt : i < s := by omega
      obtain ⟨st1, _, _, hstep⟩ :=
        relayStep_err req (inputs i) connId maxRetries i st
          hok_i.1 hok_i.2.2 hok_i.2.1 hp (hatt i le_rfl hilt)
      have hbreak : ¬ (i + 1 > maxRetries) := by omega
      rw [if_neg hbreak] at hstep
      rw [relayLoop_retry hstep]
      obtain ⟨ihb, ihr, ihc, ihu, ihg, ihd, ihf⟩ :=
        ih (i + 1) (updateProxy st1 (inputs i).nextProxy) (some (e i)) (by omega)
          (by omega) hs
          (fun j hj1 hj2 => hok j (by omega) hj2)
          (fun j hj1 hj2 => hatt j (by omega) hj2) hresp rfl
      refine ⟨ihb, ihr, ?_, ?_, ?_, ?_, ihf⟩
      · simp only [List.length_append, ihc, List.length_cons, List.length_nil]
        omega
      · simp only [ihu]; omega
      · simp only [ihg]; omega
      · have hsub : s - i = (s - (i + 1)) + 1 := by omega
        rw [hsub, List.range'_succ, List.map_cons, ihd]

lemma relayLoop_deadline (req : RelayRequest) (inputs : Nat → IterInput)
    (connId maxRetries : Nat) (e : Nat → String) (d : Nat) :
    ∀ fuel i st lerr, d < fuel + i → i ≤ d → d ≤ maxRetries →
    (∀ j, i ≤ j → j < d → stepOk inputs connId j) →
    (∀ j, i ≤ j → j < d → (inputs j).attempt = .err (e j)) →
    connClosed (inputs d).connsAtTop connId = false →
    (inputs d).elapsed > max_total_time →
    st.proxy.isSome = true →
    (relayLoop req inputs connId maxRetries fuel i st lerr).branch = .deadline ∧
    (relayLoop req inputs connId maxRetries fuel i st lerr).response = timeoutResponse ∧
    (relayLoop req inputs connId maxRetries fuel i st lerr).calls.length = d - i ∧
    (relayLoop req inputs connId maxRetries fuel i st lerr).updateCalls = d - i := by
  intro fuel
  induction fuel with
  | zero => intro i st lerr hfi hi _ _ _ _ _ _; omega
  | succ f ih =>
    intro i st lerr hfi hi hd hok hatt htop helap hps
    obtain ⟨p, hp⟩ := Option.isSome_iff_exists.mp hps
    by_cases hid : i = d
    · subst hid
      have hstep := relayStep_deadline req (inputs i) connId maxRetries i st htop helap
      rw [relayLoop_exit hstep]
      exact ⟨rfl, rfl, by simp, by simp⟩
    · have hilt : i < d := by omega
      have hok_i := hok i le_rfl hilt
      obtain ⟨st1, _, _, hstep⟩ :=
        relayStep_err req (inputs i) connId maxRetries i st
          hok_i.1 hok_i.2.2 hok_i.2.1 hp (hatt i le_rfl hilt)
      have hbreak : ¬ (i + 1 > maxRetries) := by omega
      rw [if_neg hbreak] at hstep
      rw [relayLoop_retry hstep]
      obtain ⟨ihb, ihr, ihc, ihu⟩ :=
        ih (i + 1) (updateProxy st1 (inputs i).nextProxy) (some (e i)) (by omega)
          (by omega) hd
          (fun j hj1 hj2 => hok j (by omega) hj2)
          (fun j hj1 hj2 => hatt j (by omega) hj2) htop helap rfl
      refine ⟨ihb, ihr, ?_, ?_⟩
      · simp only [List.length_append, ihc, List.length_cons, List.length_nil]
        omega
      · simp only [ihu]; omega

lemma dictGet_mem {m : List (Nat × Bool)} {k : Nat} {v : Bool} :
    dictGet m k = some v → (k, v) ∈ m := by
  induction m with
  | nil => intro h; simp [dictGet] at h
  | cons kv rest ih =>
    obtain ⟨k1, v1⟩ := kv
    intro h
    by_cases hk : k1 = k
    · subst hk
      simp only [dictGet, if_pos rfl] at h
      cases h
      exact List.mem_cons_self _ _
    · simp only [dictGet, if_neg hk] at h
      exact List.mem_cons_of_mem _ (ih h)

lemma connClosed_of_allTrue {m : List (Nat × Bool)} (h : allTrue m) (c : Nat) :
    connClosed m c = false := by
  rcases hg : dictGet m c with _ | b
  · unfold connClosed; rw [hg]
  · have hb : b = true := h _ (dictGet_mem hg)
    unfold connClosed
    rw [hg, hb]
    rfl

lemma allTrue_dictSet (k : Nat) :
    ∀ m : List (Nat × Bool), allTrue m → allTrue (dictSet m k true) := by
  intro m
  induction m with
  | nil =>
    intro _ kv hkv
    simp only [dictSet, List.mem_singleton] at hkv
    rw [hkv]
  | cons kv0 rest ih =>
    obtain ⟨k1, v1⟩ := kv0
    intro h kv hkv
    have hrest : allTrue rest := fun kv2 hkv2 => h _ (List.mem_cons_of_mem _ hkv2)
    by_cases hk : k1 = k
    · simp only [dictSet, if_pos hk] at hkv
      rcases List.mem_cons.mp hkv with h1 | h2
      · rw [h1]
      · exact hrest _ h2
    · simp only [dictSet, if_neg hk] at hkv
      rcases List.mem_cons.mp hkv with h1 | h2
      · rw [h1]; exact h _ (List.mem_cons_self _ _)
      · exact ih hrest _ h2

lemma allTrue_dictDel (k : Nat) :
    ∀ m : List (Nat × Bool), allTrue m → allTrue (dictDel m k) := by
  intro m
  induction m with
  | nil => intro _ kv hkv; simp [dictDel] at hkv
  | cons kv0 rest ih =>
    obtain ⟨k1, v1⟩ := kv0
    intro h kv hkv
    have hrest : allTrue rest := fun kv2 hkv2 => h _ (List.mem_cons_of_mem _ hkv2)
    by_cases hk : k1 = k
    · simp only [dictDel, if_pos hk] at hkv
      exact hrest _ hkv
    · simp only [dictDel, if_neg hk] at hkv
      rcases List.mem_cons.mp hkv with h1 | h2
      · rw [h1]; exact h _ (List.mem_cons_self _ _)
      · exact ih hrest _ h2

lemma allTrue_applyEvent {m : List (Nat × Bool)} (h : allTrue m) (ev : ConnEvent) :
    allTrue (applyEvent m ev) := by
  cases ev with
  | connected c => exact allTrue_dictSet c m h
  | disconnected c =>
    show allTrue (client_disconnected m c)
    unfold client_disconnected
    split
    · exact allTrue_dictDel c m h
    · exact h

lemma allTrue_applyEvents :
    ∀ (evs : List ConnEvent) (m : List (Nat × Bool)), allTrue m → allTrue (applyEvents m evs) := by
  intro evs
  induction evs with
  | nil => intro m h; exact h
  | cons ev rest ih =>
    intro m h
    exact ih (applyEvent m ev) (allTrue_applyEvent h ev)

lemma allTrue_reachable {m : List (Nat × Bool)} (h : Reachable m) : allTrue m := by
  obtain ⟨evs, hevs⟩ := h
  have h0 : allTrue ([] : List (Nat × Bool)) := fun kv hkv => absurd hkv (List.not_mem_nil _)
  exact hevs ▸ allTrue_applyEvents evs [] h0

lemma relayStep_not_cancel {req : RelayRequest} {inp : IterInput} {connId maxRetries i : Nat}
    {st : AddonState}
    (hTop : connClosed inp.connsAtTop connId = false)
    (hErr : connClosed inp.connsAtErr connId = false) :
    ∀ {b r st2 calls upd gets},
      relayStep req inp connId maxRetries i st = .exit b r st2 calls upd gets →
      b ≠ .clientClosedTop ∧ b ≠ .clientClosedExc := by
  intro b r st2 calls upd gets h
  unfold relayStep exceptPart at h
  simp only [hTop, hErr, Bool.false_eq_true, if_false] at h
  split at h
  · cases h; exact ⟨by decide, by decide⟩
  · split at h
    · split at h
      · cases h; exact ⟨by decide, by decide⟩
      · exact StepOut.noConfusion h
    · split at h
      · cases h; exact ⟨by decide, by decide⟩
      · split at h
        · cases h; exact ⟨by decide, by decide⟩
        · exact StepOut.noConfusion h

lemma relayLoop_no_cancel (req : RelayRequest) (inputs : Nat → IterInput)
    (connId maxRetries : Nat) :
    ∀ fuel i st lerr,
    (∀ j, allTrue (inputs j).connsAtTop ∧ allTrue (inputs j).connsAtErr) →
    (relayLoop req inputs connId maxRetries fuel i st lerr).branch ≠ .clientClosedTop ∧
    (relayLoop req inputs connId maxRetries fuel i st lerr).branch ≠ .clientClosedExc := by
  intro fuel
  induction fuel with
  | zero =>
    intro i st lerr _
    exact ⟨by simp [relayLoop], by simp [relayLoop]⟩
  | succ f ih =>
    intro i st lerr hs
    have hTop := connClosed_of_allTrue (hs i).1 connId
    have hErr := connClosed_of_allTrue (hs i).2 connId
    cases hstep : relayStep req (inputs i) connId maxRetries i st with
    | exit b r st2 calls upd gets =>
      rw [relayLoop_exit hstep]
      exact relayStep_not_cancel hTop hErr hstep
    | retry e st2 calls =>
      rw [relayLoop_retry hstep]
      exact ih (i + 1) st2 (some e) hs

lemma relayStep_exit_status {req : RelayRequest} {inp : IterInput} {connId maxRetries i : Nat}
    {st : AddonState} {b : ExitBranch} {r : HttpResponse} {st2 : AddonState}
    {calls : List (RelayRequest × Option Proxy)} {upd gets : Nat}
    (h : relayStep req inp connId maxRetries i st = .exit b r st2 calls upd gets)
    (hb : b ≠ .success) :
    r.status = 499 ∨ r.status = 502 ∨ r.status = 504 := by
  unfold relayStep exceptPart at h
  split at h
  · cases h; exact Or.inl rfl
  · split at h
    · cases h; exact Or.inr (Or.inr rfl)
    · split at h
      · split at h
        · cases h; exact Or.inl rfl
        · split at h
          · cases h; exact Or.inr (Or.inl rfl)
          · exact StepOut.noConfusion h
      · split at h
        · cases h; exact absurd rfl hb
        · split at h
          · cases h; exact Or.inl rfl
          · split at h
            · cases h; exact Or.inr (Or.inl rfl)
            · exact StepOut.noConfusion h

lemma relayLoop_not_success_status (req : RelayRequest) (inputs : Nat → IterInput)
    (connId maxRetries : Nat) :
    ∀ fuel i st lerr,
    (relayLoop req inputs connId maxRetries fuel i st lerr).branch ≠ .success →
    ((relayLoop req inputs connId maxRetries fuel i st lerr).response.status = 499 ∨
     (relayLoop req inputs connId maxRetries fuel i st lerr).response.status = 502 ∨
     (relayLoop req inputs connId maxRetries fuel i st lerr).response.status = 504) := by
  intro fuel
  induction fuel with
  | zero => intro i st lerr _; exact Or.inr (Or.inl rfl)
  | succ f ih =>
    intro i st lerr hb
    cases hstep : relayStep req (inputs i) connId maxRetries i st with
    | exit b r st2 calls upd gets =>
      rw [relayLoop_exit hstep]
      rw [relayLoop_exit hstep] at hb
      exact relayStep_exit_status hstep hb
    | retry e st2 calls =>
      rw [relayLoop_retry hstep]
      rw [relayLoop_retry hstep] at hb
      exact ih (i + 1) st2 (some e) hb

lemma relayStep_req (req1 req2 : RelayRequest) (inp : IterInput) (connId maxRetries i : Nat)
    (st : AddonState) :
    (∃ b r st2 upd gets,
       relayStep req1 inp connId maxRetries i st = .exit b r st2 [] upd gets ∧
       relayStep req2 inp connId maxRetries i st = .exit b r st2 [] upd gets) ∨
    (∃ b r st2 c upd gets,
       relayStep req1 inp connId maxRetries i st = .exit b r st2 [(req1, c)] upd gets ∧
       relayStep req2 inp connId maxRetries i st = .exit b r st2 [(req2, c)] upd gets) ∨
    (∃ e st2 c,
       relayStep req1 inp connId maxRetries i st = .retry e st2 [(req1, c)] ∧
       relayStep req2 inp connId maxRetries i st = .retry e st2 [(req2, c)]) ∨
    (∃ e st2,
       relayStep req1 inp connId maxRetries i st = .retry e st2 [] ∧
       relayStep req2 inp connId maxRetries i st = .retry e st2 []) := by
  unfold relayStep exceptPart
  rcases h1 : connClosed inp.connsAtTop connId with _ | _
  · simp only [h1, Bool.false_eq_true, if_false]
    by_cases h2 : inp.elapsed > max_total_time
    · simp only [if_pos h2]
      exact Or.inl ⟨_, _, _, _, _, rfl, rfl⟩
    · simp only [if_neg h2]
      rcases h3 : connClosed inp.connsAtErr connId with _ | _
      · by_cases h4 : i + 1 > maxRetries
        · rcases hre : rebuildConnector st with _ | st1
          · simp only [hre, h3, Bool.false_eq_true, if_false, if_pos h4]
            exact Or.inl ⟨_, _, _, _, _, rfl, rfl⟩
          · simp only [hre]
            rcases ha : inp.attempt with r | e
            · exact Or.inr (Or.inl ⟨_, _, _, _, _, _, rfl, rfl⟩)
            · simp only [h3, Bool.false_eq_true, if_false, if_pos h4]
              exact Or.inr (Or.inl ⟨_, _, _, _, _, _, rfl, rfl⟩)
        · rcases hre : rebuildConnector st with _ | st1
          · simp only [hre, h3, Bool.false_eq_true, if_false, if_neg h4]
            exact Or.inr (Or.inr (Or.inr ⟨_, _, rfl, rfl⟩))
          · simp only [hre]
            rcases ha : inp.attempt with r | e
            · exact Or.inr (Or.inl ⟨_, _, _, _, _, _, rfl, rfl⟩)
            · simp only [h3, Bool.false_eq_true, if_false, if_neg h4]
              exact Or.inr (Or.inr (Or.inl ⟨_, _, _, rfl, rfl⟩))
      · rcases hre : rebuildConnector st with _ | st1
        · simp only [hre, h3, if_true]
          exact Or.inl ⟨_, _, _, _, _, rfl, rfl⟩
        · simp only [hre]
          rcases ha : inp.attempt with r | e
          · exact Or.inr (Or.inl ⟨_, _, _, _, _, _, rfl, rfl⟩)
          · simp only [h3, if_true]
            exact Or.inr (Or.inl ⟨_, _, _, _, _, _, rfl, rfl⟩)
  · simp only [h1, if_true]
    exact Or.inl ⟨_, _, _, _, _, rfl, rfl⟩

lemma relayLoop_req_agnostic (req1 req2 : RelayRequest) (inputs : Nat → IterInput)
    (connId maxRetries : Nat) :
    ∀ fuel i st lerr,
    (relayLoop req1 inputs connId maxRetries fuel i st lerr).branch =
      (relayLoop req2 inputs connId maxRetries fuel i st lerr).branch ∧
    (relayLoop req1 inputs connId maxRetries fuel i st lerr).response =
      (relayLoop req2 inputs connId maxRetries fuel i st lerr).response ∧
    (relayLoop req1 inputs connId maxRetries fuel i st lerr).finalState =
      (relayLoop req2 inputs connId maxRetries fuel i st lerr).finalState ∧
    (relayLoop req1 inputs connId maxRetries fuel i st lerr).calls.map Prod.snd =
      (relayLoop req2 inputs connId maxRetries fuel i st lerr).calls.map Prod.snd ∧
    (relayLoop req1 inputs connId maxRetries fuel i st lerr).updateCalls =
      (relayLoop req2 inputs connId maxRetries fuel i st lerr).updateCalls ∧
    (relayLoop req1 inputs connId maxRetries fuel i st lerr).getCalls =
      (relayLoop req2 inputs connId maxRetries fuel i st lerr).getCalls ∧
    (relayLoop req1 inputs connId maxRetries fuel i st lerr).delays =
      (relayLoop req2 inputs connId maxRetries fuel i st lerr).delays := by
  intro fuel
  induction fuel with
  | zero => intro i st lerr; exact ⟨rfl, rfl, rfl, rfl, rfl, rfl, rfl⟩
  | succ f ih =>
    intro i st lerr
    rcases relayStep_req req1 req2 (inputs i) connId maxRetries i st with
      ⟨b, r, st2, upd, gets, hA, hB⟩ | ⟨b, r, st2, c, upd, gets, hA, hB⟩ |
      ⟨e, st2, c, hA, hB⟩ | ⟨e, st2, hA, hB⟩
    · rw [relayLoop_exit hA, relayLoop_exit hB]
      exact ⟨rfl, rfl, rfl, rfl, rfl, rfl, rfl⟩
    · rw [relayLoop_exit hA, relayLoop_exit hB]
      exact ⟨rfl, rfl, rfl, by simp, rfl, rfl, rfl⟩
    · rw [relayLoop_retry hA, relayLoop_retry hB]
      obtain ⟨ihb, ihr, ihs, ihc, ihu, ihg, ihd⟩ := ih (i + 1) st2 (some e)
      refine ⟨ihb, ihr, ihs, ?_, by rw [ihu], by rw [ihg], by rw [ihd]⟩
      simp only [List.map_append, List.map_cons, List.map_nil]
      rw [ihc]
    · rw [relayLoop_retry hA, relayLoop_retry hB]
      obtain ⟨ihb, ihr, ihs, ihc, ihu, ihg, ihd⟩ := ih (i + 1) st2 (some e)
      refine ⟨ihb, ihr, ihs, ?_, by rw [ihu], by rw [ihg], by rw [ihd]⟩
      simp only [List.map_append, List.map_nil]
      rw [ihc]

/-- Sample upstream proxy. -/
def pA : Proxy := { protocol := "socks5", ip := "10.0.0.1", port := 1080 }

/-- Second sample upstream proxy, handed out by the Proxy Source on rotation. -/
def pB : Proxy := { protocol := "socks5", ip := "10.0.0.2", port := 1080 }

/-- Sample destination response. -/
def respOk : HttpResponse := { status := 200, headers := [("Server", "test")], body := "hello" }

/-- Sample relayed request. -/
def reqGet : RelayRequest :=
  { method := "GET", url := "http://example.com/", headers := [], body := none }

/-- Sample request with an unsupported HTTP verb. -/
def traceReq : RelayRequest :=
  { method := "TRACE", url := "http://example.com/", headers := [], body := none }

/-- Sample request carrying a session identifier in its client
identification header. -/
def sessReq : RelayRequest :=
  { method := "GET", url := "http://example.com/"
    headers := [("User-Agent", "client SessionID/abc")], body := none }

/-- Addon state right after `initialize`: proxy fetched, dirty flag set,
no connector yet. -/
def stReady : AddonState := { proxy := some pA, proxy_updated := true, connector := none }

/-- Addon state in steady operation: proxy set, flag clear, connector built. -/
def stIdle : AddonState := { proxy := some pA, proxy_updated := false, connector := some pA }

/-- Environment where every attempt gets a response and the client stays
connected. -/
def inputsOk : Nat → IterInput := fun _ =>
  { connsAtTop := [], elapsed := 0, attempt := .resp respOk, connsAtErr := [], nextProxy := pB }

/-- Environment where the first attempt fails with a transport error and
every later attempt gets a response. -/
def inputsFailOnce : Nat → IterInput := fun i =>
  { connsAtTop := [], elapsed := 0
    attempt := if i = 0 then .err "boom" else .resp respOk
    connsAtErr := [], nextProxy := pB }

/-- Environment where every attempt fails with a transport error. -/
def inputsAllFail : Nat → IterInput := fun _ =>
  { connsAtTop := [], elapsed := 0, attempt := .err "boom", connsAtErr := [], nextProxy := pB }

/-- Environment where the first attempt fails and the wall clock has
passed the overall deadline by the second iteration. -/
def inputsLate : Nat → IterInput := fun i =>
  { connsAtTop := [], elapsed := if i = 0 then 0 else 241
    attempt := .err "boom", connsAtErr := [], nextProxy := pB }

/-- The `active_connections` dict after `client_connected` then
`client_disconnected` for the same client: the entry is deleted. -/
def connsGone : List (Nat × Bool) := client_disconnected (client_connected [] 7) 7

/-- Environment seen by a request whose client has already disconnected:
every snapshot of `active_connections` is `connsGone`, and the transport
returns a response. -/
def inputsGone : Nat → IterInput := fun _ =>
  { connsAtTop := connsGone, elapsed := 0, attempt := .resp respOk
    connsAtErr := connsGone, nextProxy := pB }

/-- C2: the spec says a request whose client disconnected before the
first attempt returns the synthesized 499 response with zero outbound
calls.  The code cannot do this: `client_disconnected` deletes the
`active_connections` entry, so the guard
`conn_id in self.active_connections and not self.active_connections[conn_id]`
is false and the request proceeds.  Concretely, after
`client_connected` then `client_disconnected` for connection 7 the guard
evaluates to false, and a request for that connection performs one
outbound transport call and returns the destination's 200 response, not
499. -/
theorem c2_disconnect_bug :
    connClosed (client_disconnected (client_connected [] 7) 7) 7 = false ∧
    (request reqGet inputsGone 7 stReady).branch = .success ∧
    (request reqGet inputsGone 7 stReady).calls.length = 1 ∧
    (request reqGet inputsGone 7 stReady).response.status = 200 := by
  refine ⟨?_, ?_, ?_, ?_⟩ <;>
    norm_num [request, relayLoop, relayStep, rebuildConnector, connClosed,
      client_connected, client_disconnected, dictSet, dictDel, dictGet, inputsGone,
      connsGone, stReady, max_total_time, max_retries, respOk]

/-- C9: every value stored in `active_connections` is `True`
(`client_connected` inserts `True`; `client_disconnected` deletes the
key), so on any dict reachable from the addon's initial empty dict the
guard `conn_id in active_connections and not active_connections[conn_id]`
is false, and no run of the retry loop whose dict snapshots are
reachable ever returns through either 499 branch. -/
theorem c9_cancel_branches_unreachable (evs : List ConnEvent) (c : Nat)
    (req : RelayRequest) (inputs : Nat → IterInput) (connId maxRetries fuel i : Nat)
    (st : AddonState) (lerr : Option String)
    (hreach : ∀ j, Reachable (inputs j).connsAtTop ∧ Reachable (inputs j).connsAtErr) :
    (∀ kv ∈ applyEvents [] evs, kv.2 = true) ∧
    connClosed (applyEvents [] evs) c = false ∧
    (relayLoop req inputs connId maxRetries fuel i st lerr).branch ≠ .clientClosedTop ∧
    (relayLoop req inputs connId maxRetries fuel i st lerr).branch ≠ .clientClosedExc := by
  have hat : allTrue (applyEvents [] evs) := allTrue_reachable ⟨evs, rfl⟩
  have hnc := relayLoop_no_cancel req inputs connId maxRetries fuel i st lerr
    (fun j => ⟨allTrue_reachable (hreach j).1, allTrue_reachable (hreach j).2⟩)
  exact ⟨hat, connClosed_of_allTrue hat c, hnc.1, hnc.2⟩

/-- Witness for C9 at a concrete event list and a concrete run. -/
theorem c9_witness :
    connClosed (applyEvents [] [ConnEvent.connected 1, ConnEvent.disconnected 1]) 1 = false ∧
    (relayLoop reqGet inputsOk 7 50 51 0 stReady none).branch ≠ .clientClosedTop := by
  have h := c9_cancel_branches_unreachable
    [ConnEvent.connected 1, ConnEvent.disconnected 1] 1 reqGet inputsOk 7 50 51 0
    stReady none (fun _ => ⟨⟨[], rfl⟩, ⟨[], rfl⟩⟩)
  exact ⟨h.2.1, h.2.2.1⟩

/-- C4: a transport response with any status code is passed through
unmodified — `relay()` returns that exact status, headers and body,
makes exactly one outbound call, sleeps no backoff delay, and performs
no Proxy Source `update()` or `get()` call. -/
theorem c4_response_passthrough (req : RelayRequest) (inputs : Nat → IterInput)
    (connId : Nat) (st : AddonState) (p : Proxy) (r : HttpResponse)
    (h1 : connClosed (inputs 0).connsAtTop connId = false)
    (h2 : (inputs 0).elapsed ≤ max_total_time)
    (hp : st.proxy = some p)
    (hr : (inputs 0).attempt = .resp r)
    (hs1 : 100 ≤ r.status) (hs2 : r.status ≤ 599) :
    (request req inputs connId st).branch = .success ∧
    (request req inputs connId st).response = r ∧
    (request req inputs connId st).calls.length = 1 ∧
    (request req inputs connId st).updateCalls = 0 ∧
    (request req inputs connId st).getCalls = 0 ∧
    (request req inputs connId st).delays = [] := by
  obtain ⟨st1, _, _, _, hstep⟩ :=
    relayStep_resp req (inputs 0) connId max_retries 0 st h1 h2 hp hr
  unfold request
  rw [relayLoop_exit hstep]
  exact ⟨rfl, rfl, rfl, rfl, rfl, rfl⟩

/-- Witness for C4 at a concrete 200 response. -/
theorem c4_witness :
    (100 ≤ respOk.status ∧ respOk.status ≤ 599) ∧
    (request reqGet inputsOk 7 stReady).branch = .success ∧
    (request reqGet inputsOk 7 stReady).response = respOk ∧
    (request reqGet inputsOk 7 stReady).calls.length = 1 ∧
    (request reqGet inputsOk 7 stReady).updateCalls = 0 ∧
    (request reqGet inputsOk 7 stReady).getCalls = 0 ∧
    (request reqGet inputsOk 7 stReady).delays = [] :=
  ⟨⟨by norm_num [respOk], by norm_num [respOk]⟩,
   c4_response_passthrough reqGet inputsOk 7 stReady pA respOk rfl
     (by norm_num [inputsOk, max_total_time]) rfl rfl
     (by norm_num [respOk]) (by norm_num [respOk])⟩

/-- C5: if every outbound attempt raises a transport error while the
client stays connected and the deadline is never observed exceeded, the
loop makes exactly `maxRetries + 1` outbound attempts and returns the
synthesized 502 response whose body names the last transport error
(the code fixes `max_retries = 50`; the count of attempts is proved for
every value of the bound, in particular 3 attempts for `maxRetries = 2`). -/
theorem c5_retries_exhausted_502 (req : RelayRequest) (inputs : Nat → IterInput)
    (connId maxRetries : Nat) (e : Nat → String) (st : AddonState)
    (hok : ∀ j, j ≤ maxRetries → stepOk inputs connId j)
    (hatt : ∀ j, j ≤ maxRetries → (inputs j).attempt = .err (e j))
    (hps : st.proxy.isSome = true) :
    (relayLoop req inputs connId maxRetries (maxRetries + 1) 0 st none).branch
      = .exhausted ∧
    (relayLoop req inputs connId maxRetries (maxRetries + 1) 0 st none).response.status
      = 502 ∧
    (relayLoop req inputs connId maxRetries (maxRetries + 1) 0 st none).response.body
      = "Error after " ++ toString (maxRetries + 1) ++ " attempts: " ++ e maxRetries ∧
    (relayLoop req inputs connId maxRetries (maxRetries + 1) 0 st none).calls.length
      = maxRetries + 1 := by
  obtain ⟨hb, hr, hc, _, _, _⟩ :=
    relayLoop_all_err req inputs connId maxRetries e (maxRetries + 1) 0 st none
      (by omega) (by omega) (fun j _ hj => hok j hj) (fun j _ hj => hatt j hj) hps
  exact ⟨hb, by rw [hr]; rfl, by rw [hr]; simp [exhaustedResponse, strOfLastError], hc⟩

/-- Witness for C5 at `maxRetries = 2`: exactly 3 attempts then 502. -/
theorem c5_witness :
    (inputsAllFail 0).attempt = .err "boom" ∧
    (relayLoop reqGet inputsAllFail 7 2 (2 + 1) 0 stReady none).branch = .exhausted ∧
    (relayLoop reqGet inputsAllFail 7 2 (2 + 1) 0 stReady none).response.status = 502 ∧
    (relayLoop reqGet inputsAllFail 7 2 (2 + 1) 0 stReady none).response.body
      = "Error after " ++ toString (2 + 1) ++ " attempts: " ++ "boom" ∧
    (relayLoop reqGet inputsAllFail 7 2 (2 + 1) 0 stReady none).calls.length = 2 + 1 :=
  ⟨rfl,
   c5_retries_exhausted_502 reqGet inputsAllFail 7 2 (fun _ => "boom") stReady
     (fun _ _ => ⟨rfl, rfl, by norm_num [inputsAllFail, max_total_time]⟩)
     (fun _ _ => rfl) rfl⟩

/-- C6: if the transport fails on the first `N` attempts and succeeds on
attempt `N + 1` with `N < maxRetries` (client connected, deadline not
exceeded), the loop returns the successful response and the Proxy
Source's rotation — `proxy_interface.update()`, immediately followed by
the forced `get()` of `_update_proxy(force=True)` — happens exactly `N`
times, once per failed attempt and never on the successful one. -/
theorem c6_refresh_per_failure (req : RelayRequest) (inputs : Nat → IterInput)
    (connId maxRetries N : Nat) (e : Nat → String) (r : HttpResponse) (st : AddonState)
    (hN : N < maxRetries)
    (hok : ∀ j, j ≤ N → stepOk inputs connId j)
    (hatt : ∀ j, j < N → (inputs j).attempt = .err (e j))
    (hresp : (inputs N).attempt = .resp r)
    (hps : st.proxy.isSome = true) :
    (relayLoop req inputs connId maxRetries (maxRetries + 1) 0 st none).branch
      = .success ∧
    (relayLoop req inputs connId maxRetries (maxRetries + 1) 0 st none).response = r ∧
    (relayLoop req inputs connId maxRetries (maxRetries + 1) 0 st none).updateCalls
      = N ∧
    (relayLoop req inputs connId maxRetries (maxRetries + 1) 0 st none).getCalls = N ∧
    (relayLoop req inputs connId maxRetries (maxRetries + 1) 0 st none).calls.length
      = N + 1 := by
  obtain ⟨hb, hr, hc, hu, hg, _, _⟩ :=
    relayLoop_err_resp req inputs connId maxRetries e r N (maxRetries + 1) 0 st none
      (by omega) (by omega) (by omega) (fun j _ hj => hok j hj)
      (fun j _ hj => hatt j hj) hresp hps
  exact ⟨hb, hr, by simpa using hu, by simpa using hg, by simpa using hc⟩

/-- Witness for C6 at `N = 1`, `maxRetries = 2`. -/
theorem c6_witness :
    (inputsFailOnce 0).attempt = .err "boom" ∧
    (inputsFailOnce 1).attempt = .resp respOk ∧
    (relayLoop reqGet inputsFailOnce 7 2 (2 + 1) 0 stReady none).branch = .success ∧
    (relayLoop reqGet inputsFailOnce 7 2 (2 + 1) 0 stReady none).response = respOk ∧
    (relayLoop reqGet inputsFailOnce 7 2 (2 + 1) 0 stReady none).updateCalls = 1 ∧
    (relayLoop reqGet inputsFailOnce 7 2 (2 + 1) 0 stReady none).getCalls = 1 ∧
    (relayLoop reqGet inputsFailOnce 7 2 (2 + 1) 0 stReady none).calls.length = 1 + 1 :=
  ⟨rfl, rfl,
   c6_refresh_per_failure reqGet inputsFailOnce 7 2 1 (fun _ => "boom") respOk stReady
     (by omega)
     (fun _ _ => ⟨rfl, rfl, by norm_num [inputsFailOnce, max_total_time]⟩)
     (fun j hj => by
       have hj0 : j = 0 := by omega
       subst hj0
       rfl)
     rfl rfl⟩

/-- C7: the delay slept before retry attempt `k` is
`backoffDelay k = min(10, 0.5 * 2 ** k)` — in an all-failing run the
recorded delay sequence is exactly `backoffDelay` applied to the retry
counters 1, 2, ... — and that sequence is non-decreasing, bounded by the
10-second cap, and equal to the cap from `k = 5` on. -/
theorem c7_backoff_formula (req : RelayRequest) (inputs : Nat → IterInput)
    (connId maxRetries : Nat) (e : Nat → String) (st : AddonState)
    (hok : ∀ j, j ≤ maxRetries → stepOk inputs connId j)
    (hatt : ∀ j, j ≤ maxRetries → (inputs j).attempt = .err (e j))
    (hps : st.proxy.isSome = true) :
    (relayLoop req inputs connId maxRetries (maxRetries + 1) 0 st none).delays
      = (List.range' 1 maxRetries).map backoffDelay ∧
    (∀ k, backoffDelay k = pyMin 10 (1 / 2 * 2 ^ k)) ∧
    (∀ j k, j ≤ k → backoffDelay j ≤ backoffDelay k) ∧
    (∀ k, backoffDelay k ≤ 10) ∧
    (∀ k, 5 ≤ k → backoffDelay k = 10) := by
  obtain ⟨_, _, _, _, _, hd⟩ :=
    relayLoop_all_err req inputs connId maxRetries e (maxRetries + 1) 0 st none
      (by omega) (by omega) (fun j _ hj => hok j hj) (fun j _ hj => hatt j hj) hps
  exact ⟨by simpa using hd, fun _ => rfl, fun _ _ h => backoffDelay_mono h,
    backoffDelay_le_ten, fun _ hk => backoffDelay_eq_ten hk⟩

/-- Witness for C7 at `maxRetries = 3`: delays 1, 2, 4 seconds. -/
theorem c7_witness :
    (relayLoop reqGet inputsAllFail 7 3 (3 + 1) 0 stReady none).delays
      = (List.range' 1 3).map backoffDelay ∧
    (List.range' 1 3).map backoffDelay = [1, 2, 4] :=
  ⟨(c7_backoff_formula reqGet inputsAllFail 7 3 (fun _ => "boom") stReady
      (fun _ _ => ⟨rfl, rfl, by norm_num [inputsAllFail, max_total_time]⟩)
      (fun _ _ => rfl) rfl).1,
   by norm_num [List.range', backoffDelay, pyMin]⟩

/-- C8: if at the top of retry iteration `d` the elapsed wall-clock time
exceeds `max_total_time` (240 seconds), while the `d` earlier iterations
each failed within the deadline with the client connected, `relay()`
returns the synthesized 504 response and the total number of outbound
transport calls is exactly `d` — no attempt is issued at or after the
iteration that observes the deadline exceeded. -/
theorem c8_deadline_504 (req : RelayRequest) (inputs : Nat → IterInput)
    (connId : Nat) (e : Nat → String) (d : Nat) (st : AddonState)
    (hd : d ≤ max_retries)
    (hok : ∀ j, j < d → stepOk inputs connId j)
    (hatt : ∀ j, j < d → (inputs j).attempt = .err (e j))
    (htop : connClosed (inputs d).connsAtTop connId = false)
    (helap : (inputs d).elapsed > max_total_time)
    (hps : st.proxy.isSome = true) :
    (request req inputs connId st).branch = .deadline ∧
    (request req inputs connId st).response.status = 504 ∧
    (request req inputs connId st).response.body = "Request timeout" ∧
    (request req inputs connId st).calls.length = d := by
  unfold request
  obtain ⟨hb, hr, hc, _⟩ :=
    relayLoop_deadline req inputs connId max_retries e d (max_retries + 1) 0 st none
      (by omega) (by omega) hd (fun j _ hj => hok j hj) (fun j _ hj => hatt j hj)
      htop helap hps
  exact ⟨hb, by rw [hr]; rfl, by rw [hr]; rfl, by simpa using hc⟩

/-- Witness for C8 at `d = 1`: one failed attempt, then the deadline is
observed exceeded. -/
theorem c8_witness :
    (inputsLate 1).elapsed > max_total_time ∧
    (request reqGet inputsLate 7 stReady).branch = .deadline ∧
    (request reqGet inputsLate 7 stReady).response.status = 504 ∧
    (request reqGet inputsLate 7 stReady).response.body = "Request timeout" ∧
    (request reqGet inputsLate 7 stReady).calls.length = 1 := by
  have helap : (inputsLate 1).elapsed > max_total_time := by
    norm_num [inputsLate, max_total_time]
  have h := c8_deadline_504 reqGet inputsLate 7 (fun _ => "boom") 1 stReady
    (by norm_num [max_retries])
    (fun j hj => by
      have hj0 : j = 0 := by omega
      subst hj0
      exact ⟨rfl, rfl, by norm_num [inputsLate, max_total_time]⟩)
    (fun j hj => by
      have hj0 : j = 0 := by omega
      subst hj0
      rfl)
    rfl helap rfl
  exact ⟨helap, h.1, h.2.1, h.2.2.1, h.2.2.2⟩

/-- C1 counterexample: `AioHttpAddon.request` never validates the HTTP
method.  A request with method `"TRACE"` is forwarded to the transport
(one outbound call is made, carrying that very request) and the
destination's 200 response is returned; no 501 is synthesized and the
outbound call count is not zero. -/
theorem c1_unsupported_method_counterexample :
    (request traceReq inputsOk 7 stReady).calls.length = 1 ∧
    (request traceReq inputsOk 7 stReady).calls.map Prod.fst = [traceReq] ∧
    (request traceReq inputsOk 7 stReady).response.status = 200 ∧
    (request traceReq inputsOk 7 stReady).response.status ≠ 501 := by
  refine ⟨?_, ?_, ?_, ?_⟩ <;>
    norm_num [request, relayLoop, relayStep, rebuildConnector, connClosed, dictGet,
      inputsOk, stReady, max_total_time, max_retries, respOk]

/-- C1 amended: `request` performs no method validation at all — any
method string, `"TRACE"` included, is forwarded unchanged to the
transport, whose response is passed through; and the engine never
synthesizes a 501: every non-success exit carries status 499, 502 or
504. -/
theorem c1_amended_no_method_validation (method url : String)
    (headers : List (String × String)) (body : Option String)
    (inputs : Nat → IterInput) (connId : Nat) (st : AddonState) (p : Proxy)
    (r : HttpResponse)
    (h1 : connClosed (inputs 0).connsAtTop connId = false)
    (h2 : (inputs 0).elapsed ≤ max_total_time)
    (hp : st.proxy = some p)
    (hr : (inputs 0).attempt = .resp r) :
    (request ⟨method, url, headers, body⟩ inputs connId st).branch = .success ∧
    (request ⟨method, url, headers, body⟩ inputs connId st).response = r ∧
    (request ⟨method, url, headers, body⟩ inputs connId st).calls.map Prod.fst
      = [⟨method, url, headers, body⟩] ∧
    (∀ (req2 : RelayRequest) (inputs2 : Nat → IterInput) (connId2 maxR fuel i : Nat)
        (st2 : AddonState) (lerr : Option String),
      (relayLoop req2 inputs2 connId2 maxR fuel i st2 lerr).branch ≠ .success →
      ((relayLoop req2 inputs2 connId2 maxR fuel i st2 lerr).response.status = 499 ∨
       (relayLoop req2 inputs2 connId2 maxR fuel i st2 lerr).response.status = 502 ∨
       (relayLoop req2 inputs2 connId2 maxR fuel i st2 lerr).response.status = 504)) := by
  obtain ⟨st1, _, _, _, hstep⟩ :=
    relayStep_resp ⟨method, url, headers, body⟩ (inputs 0) connId max_retries 0 st h1 h2 hp hr
  unfold request
  rw [relayLoop_exit hstep]
  exact ⟨rfl, rfl, rfl,
    fun req2 inputs2 connId2 maxR fuel i st2 lerr hb =>
      relayLoop_not_success_status req2 inputs2 connId2 maxR fuel i st2 lerr hb⟩

/-- Witness for the amended C1 at method `"TRACE"`. -/
theorem c1_amended_witness :
    (request traceReq inputsOk 7 stReady).branch = .success ∧
    (request traceReq inputsOk 7 stReady).response = respOk := by
  have h := c1_amended_no_method_validation "TRACE" "http://example.com/" [] none
    inputsOk 7 stReady pA respOk rfl
    (by norm_num [inputsOk, max_total_time]) rfl rfl
  exact ⟨h.1, h.2.1⟩

/-- C3 counterexample: the code keeps no session affinity table.  The
very same request — carrying the session identifier `"abc"` in its
client identification header — relayed twice in a row is routed through
proxy `pA` on its first attempt and through proxy `pB` on every attempt
of the second relay (the shared `self.proxy` was force-rotated by the
first relay's transport failure), and the second relay — for this
already-seen session identifier — still performs a Proxy Source `get()`
call.  So a session identifier neither keeps a stable `Proxy` nor
avoids Proxy Source calls. -/
theorem c3_affinity_counterexample :
    (request sessReq inputsFailOnce 7 stReady).calls.map Prod.snd
      = [some pA, some pB] ∧
    (request sessReq inputsFailOnce 7
        (request sessReq inputsFailOnce 7 stReady).finalState).calls.map Prod.snd
      = [some pB, some pB] ∧
    (request sessReq inputsFailOnce 7
        (request sessReq inputsFailOnce 7 stReady).finalState).getCalls = 1 ∧
    pA ≠ pB := by
  refine ⟨?_, ?_, ?_, by simp [pA, pB]⟩ <;>
    norm_num [request, relayLoop, relayStep, exceptPart, rebuildConnector, updateProxy,
      connClosed, dictGet, inputsFailOnce, stReady, max_total_time, max_retries,
      backoffDelay, pyMin, pA, pB]

/-- C3 amended: the engine has no per-session state whatsoever — the
whole outcome of a relay (exit branch, response, final proxy-selection
state, the proxies the outbound calls go through, the Proxy Source call
counts and the backoff delays) is independent of the request's method,
url, headers and body, hence of any session identifier carried in them;
proxy selection is the single process-wide `self.proxy`, refetched after
every transport failure. -/
theorem c3_amended_request_independent (req1 req2 : RelayRequest)
    (inputs : Nat → IterInput) (connId : Nat) (st : AddonState) :
    (request req1 inputs connId st).branch = (request req2 inputs connId st).branch ∧
    (request req1 inputs connId st).response = (request req2 inputs connId st).response ∧
    (request req1 inputs connId st).finalState
      = (request req2 inputs connId st).finalState ∧
    (request req1 inputs connId st).calls.map Prod.snd
      = (request req2 inputs connId st).calls.map Prod.snd ∧
    (request req1 inputs connId st).updateCalls
      = (request req2 inputs connId st).updateCalls ∧
    (request req1 inputs connId st).getCalls = (request req2 inputs connId st).getCalls ∧
    (request req1 inputs connId st).delays = (request req2 inputs connId st).delays :=
  relayLoop_req_agnostic req1 req2 inputs connId max_retries (max_retries + 1) 0 st none

/-- C10 counterexample: an attempt that receives a transport response
does not always leave the proxy-selection state unchanged — starting
from the post-`initialize` state (`proxy_updated = True`, no connector),
a successful attempt rebuilds the connector and clears `proxy_updated`
to `False`. -/
theorem c10_frame_counterexample :
    stReady.proxy_updated = true ∧
    relayStep reqGet (inputsOk 0) 7 max_retries 0 stReady =
      .exit .success respOk
        { proxy := some pA, proxy_updated := false, connector := some pA }
        [(reqGet, some pA)] 0 0 := by
  refine ⟨rfl, ?_⟩
  norm_num [relayStep, rebuildConnector, connClosed, dictGet, inputsOk, stReady,
    max_total_time, respOk]

/-- C10 amended: an attempt that receives a transport response performs
no Proxy Source `update()` or `get()` call and leaves `self.proxy`
unchanged; the connector is rebuilt exactly when it is `None` or
`proxy_updated` is set, and that rebuild — which can precede a
successful attempt — clears `proxy_updated`; when the connector exists
and the flag is clear, the whole state is untouched. -/
theorem c10_amended_success_frame (req : RelayRequest) (inp : IterInput)
    (connId maxRetries i : Nat) (st : AddonState) (p : Proxy) (r : HttpResponse)
    (h1 : connClosed inp.connsAtTop connId = false)
    (h2 : inp.elapsed ≤ max_total_time)
    (hp : st.proxy = some p)
    (hr : inp.attempt = .resp r) :
    ∃ st1 : AddonState,
      relayStep req inp connId maxRetries i st
        = .exit .success r st1 [(req, st1.connector)] 0 0 ∧
      st1.proxy = st.proxy ∧
      st1.proxy_updated = false ∧
      (st.connector.isSome = true → st.proxy_updated = false → st1 = st) ∧
      ((st.connector = none ∨ st.proxy_updated = true) → st1.connector = some p) := by
  have hnl : ¬ (inp.elapsed > max_total_time) := not_lt.mpr h2
  by_cases hb : (st.connector.isNone || st.proxy_updated) = true
  · refine ⟨{ st with connector := some p, proxy_updated := false }, ?_, rfl, rfl,
      ?_, fun _ => rfl⟩
    · simp only [relayStep, h1, Bool.false_eq_true, if_false, if_neg hnl,
        rebuildConnector, if_pos hb, hp, hr]
    · intro hc hpu
      exfalso
      rcases hco : st.connector with _ | c
      · rw [hco] at hc
        simp at hc
      · rw [hco, hpu] at hb
        simp at hb
  · have hpu : st.proxy_updated = false := by
      rcases hx : st.proxy_updated with _ | _
      · rfl
      · exact absurd (by simp [hx]) hb
    have hcs : st.connector.isNone = false := by
      rcases hx : st.connector.isNone with _ | _
      · rfl
      · exact absurd (by simp [hx]) hb
    refine ⟨st, ?_, rfl, hpu, fun _ _ => rfl, ?_⟩
    · simp only [relayStep, h1, Bool.false_eq_true, if_false, if_neg hnl,
        rebuildConnector, hb, hr]
    · intro hor
      exfalso
      rcases hor with hco | hup
      · rw [hco] at hcs
        simp at hcs
      · rw [hup] at hpu
        simp at hpu

/-- Witness for the amended C10 in the steady state: connector present,
flag clear, state untouched by a successful attempt. -/
theorem c10_amended_witness :
    relayStep reqGet (inputsOk 0) 7 max_retries 0 stIdle =
      .exit .success respOk stIdle [(reqGet, some pA)] 0 0 := by
  obtain ⟨st1, hs, _, _, hid, _⟩ :=
    c10_amended_success_frame reqGet (inputsOk 0) 7 max_retries 0 stIdle pA respOk
      rfl (by norm_num [inputsOk, max_total_time]) rfl rfl
  rw [hid rfl rfl] at hs
  exact hs

end RelayX
